import Mathlib

/-!
Verification development for the volume-syncer service.

The definitions below are a shallow embedding of the Go sources:
  internal/service/sync_service.go   (orchestrator: StartSync, validateRequest)
  internal/syncer/types.go           (factory: CreateSyncer, parse*Details)
  internal/syncer/git/git_syncer.go  (safeCloneWithReplace, branch checkout,
                                      setupSSHKey / createTempKeyFile, validate)
  internal/syncer/ssh/ssh_syncer.go  (Sync key-file lifecycle)
  internal/syncer/s3/s3_syncer.go    (NewS3Syncer, listObjects, downloadObject)
  internal/syncer/http/http_syncer.go (filename resolution, output path)
  internal/models/requests.go        (request/detail records)
  pkg/errors/errors.go               (typed errors)

External collaborators (git subprocess, rsync, the S3 client, the real file
system) are modelled as explicit oracle parameters; machine integers are Int,
durations are Nat; fallible Go functions return Except or Option.
-/

namespace VolumeSyncer

deriving instance DecidableEq for Except

/-! ## Go standard-library string and path primitives (lexical semantics) -/

/-- List-level prefix test used to model strings.HasPrefix. -/
def listHasPfx : List Char → List Char → Bool
  | _, [] => true
  | [], _ :: _ => false
  | c :: cs, p :: ps => c = p && listHasPfx cs ps

/-- strings.HasPrefix. -/
def goHasPfx (s pre : String) : Bool := listHasPfx s.data pre.data

/-- strings.HasSuffix. -/
def goHasSfx (s suf : String) : Bool := listHasPfx s.data.reverse suf.data.reverse

/-- strings.TrimPrefix: drop the prefix when present, else return s unchanged. -/
def goTrimPfx (s pre : String) : String :=
  if goHasPfx s pre then String.mk (s.data.drop pre.data.length) else s

/-- First index at which the needle occurs, over char lists (strings.Index). -/
def listIndexOf : List Char → List Char → Option Nat
  | [], n => if n = [] then some 0 else none
  | c :: cs, n =>
    if listHasPfx (c :: cs) n then some 0
    else match listIndexOf cs n with
      | some i => some (i + 1)
      | none => none

/-- strings.Index, as an Option (Go returns -1 for absence). -/
def goIndexOf (s sub : String) : Option Nat := listIndexOf s.data sub.data

/-- strings.Contains. -/
def goContains (s sub : String) : Bool := (goIndexOf s sub).isSome

/-- Drop the first n characters of a string (models s[n:]). -/
def goStrDrop (s : String) (n : Nat) : String := String.mk (s.data.drop n)

/-- strings.Trim with an explicit cutset of characters. -/
def goTrimCut (s : String) (cut : List Char) : String :=
  String.mk ((((s.data.dropWhile (fun c => cut.contains c)).reverse).dropWhile
    (fun c => cut.contains c)).reverse)

/-- Split a char list on a separator character, keeping empty fields. -/
def splitCharAux (sep : Char) : List Char → List Char → List (List Char)
  | [], acc => [acc.reverse]
  | c :: cs, acc =>
    if c = sep then acc.reverse :: splitCharAux sep cs []
    else splitCharAux sep cs (c :: acc)

/-- One step of the path.Clean element stack (stack is kept reversed). -/
def cleanStep (rooted : Bool) (st : List (List Char)) (seg : List Char) :
    List (List Char) :=
  if seg = [] ∨ seg = ['.'] then st
  else if seg = ['.', '.'] then
    match st with
    | [] => if rooted then [] else [seg]
    | top :: rest => if top = ['.', '.'] then seg :: st else rest
  else seg :: st

/-- Concatenate path elements with a slash separator. -/
def joinSegs : List (List Char) → List Char
  | [] => []
  | [s] => s
  | s :: rest => s ++ '/' :: joinSegs rest

/-- path.Clean (also filepath.Clean on unix): the lexical simplification
applied by Go, processing `.` and `..` elements and duplicate slashes. -/
def goPathClean (p : String) : String :=
  if p = "" then "." else
  let rooted := goHasPfx p "/"
  let segs := splitCharAux '/' p.data []
  let parts := (segs.foldl (cleanStep rooted) []).reverse
  if rooted then String.mk ('/' :: joinSegs parts)
  else if parts = [] then "." else String.mk (joinSegs parts)

/-- path.Join (and filepath.Join on unix) of two elements: empty elements are
skipped and the slash-joined result is cleaned. -/
def goPathJoin2 (a b : String) : String :=
  if a = "" ∧ b = "" then ""
  else if a = "" then goPathClean b
  else if b = "" then goPathClean a
  else goPathClean (a ++ "/" ++ b)

/-- path.Base (and filepath.Base on unix): strip trailing slashes, then take
the last element; empty input gives ".", all-slashes gives "/". -/
def goBase (p : String) : String :=
  if p = "" then "." else
  let stripped := (p.data.reverse.dropWhile (fun c => c = '/')).reverse
  if stripped = [] then "/"
  else String.mk ((stripped.reverse.takeWhile (fun c => c ≠ '/')).reverse)

/-! ## JSON-decoded Go values (interface-typed `details`) -/

/-- A Go value of static type interface, as produced by JSON decoding:
strings, numbers, booleans, null, objects, or anything else. Type assertions
such as `v.(string)` succeed only on the matching constructor. -/
inductive GoVal where
  | str (s : String)
  | num (n : Int)
  | boolean (b : Bool)
  | null
  | obj (fields : List (String × GoVal))
  | other

/-- Go map indexing: the value stored at a key, if any. -/
def lookupField : List (String × GoVal) → String → Option GoVal
  | [], _ => none
  | (k, v) :: rest, key => if k = key then some v else lookupField rest key

/-- The comma-ok string type assertion `m[k].(string)`: the string and the ok
flag (zero value and false when the key is absent or not a string). -/
def asStr : Option GoVal → String × Bool
  | some (.str s) => (s, true)
  | _ => ("", false)

/-- The comma-ok numeric type assertion `m[k].(float64)` (JSON numbers). -/
def asNum : Option GoVal → Int × Bool
  | some (.num n) => (n, true)
  | _ => (0, false)

/-! ## pkg/errors: typed sync errors -/

/-- SyncError from pkg/errors/errors.go: a type tag and a message. -/
structure SyncError where
  etype : String
  message : String
deriving DecidableEq, Repr

/-- NewValidationError. -/
def newValidationError (msg : String) : SyncError :=
  { etype := "validation", message := msg }

/-- A plain Go error as returned by SyncService.StartSync: either a typed
SyncError or a wrapped plain error (fmt.Errorf). -/
inductive GoError where
  | syncErr (e : SyncError)
  | wrapped (msg : String)
deriving DecidableEq, Repr

/-! ## internal/models: request and detail records -/

/-- models.Source: the tagged union of source kinds. -/
structure Source where
  type : String
  details : GoVal

/-- models.Target. -/
structure Target where
  path : String

/-- models.SyncRequest: the bound POST /sync body. Note that the record has
no timeout field. -/
structure SyncRequest where
  source : Source
  target : Target

/-- models.SSHDetails. -/
structure SSHDetails where
  host : String
  port : Int
  user : String
  password : String
  keyPath : String
  privateKey : String
  path : String
deriving DecidableEq, Repr

/-- models.GitCloneDetails. -/
structure GitCloneDetails where
  url : String
  branch : String
  depth : Int
  user : String
  password : String
  privateKey : String
deriving DecidableEq, Repr

/-- models.HTTPDownloadDetails. -/
structure HTTPDownloadDetails where
  url : String
deriving DecidableEq, Repr

/-- models.S3Details. The forcePathStyle and disableSSL fields are the
pointer-typed optional settings dereferenced by s3_syncer.go (nil-checked
there); the factory's parser never sets them. -/
structure S3Details where
  endpointURL : String
  bucketName : String
  path : String
  accessKey : String
  secretKey : String
  region : String
  forcePathStyle : Option Bool
  disableSSL : Option Bool
deriving DecidableEq, Repr

/-! ## internal/syncer/types.go: detail parsing (the factory's validation) -/

/-- parseSSHDetails from types.go. Host and user are required; port defaults
to 22; password, key path, private key and the remote path are copied when
present; password is mutually exclusive with key material. The remote path is
not checked. -/
def parseSSHDetails (details : GoVal) : Except String SSHDetails :=
  match details with
  | .obj m =>
    let hostA := asStr (lookupField m "host")
    if ¬ hostA.2 ∨ hostA.1 = "" then .error "SSH host is required" else
    let userA := asStr (lookupField m "user")
    if ¬ userA.2 ∨ userA.1 = "" then .error "SSH user is required" else
    let portA := asNum (lookupField m "port")
    let port := if portA.2 then portA.1 else 22
    let password := (asStr (lookupField m "password")).1
    let keyPath := (asStr (lookupField m "key_path")).1
    let privateKey := (asStr (lookupField m "privateKey")).1
    let path := (asStr (lookupField m "path")).1
    if password ≠ "" ∧ (privateKey ≠ "" ∨ keyPath ≠ "") then
      .error "password and privateKey/key_path cannot be provided at the same time"
    else
      .ok { host := hostA.1, port := port, user := userA.1,
            password := password, keyPath := keyPath,
            privateKey := privateKey, path := path }
  | _ => .error "SSH details must be an object"

/-- parseGitDetails from types.go. URL is required; branch, depth, user,
password and private key are copied when present; username/password is
mutually exclusive with the private key. The username-password pairing is not
checked here. -/
def parseGitDetails (details : GoVal) : Except String GitCloneDetails :=
  match details with
  | .obj m =>
    let urlA := asStr (lookupField m "url")
    if ¬ urlA.2 ∨ urlA.1 = "" then .error "Git URL is required" else
    let branch := (asStr (lookupField m "branch")).1
    let depthA := asNum (lookupField m "depth")
    let depth := if depthA.2 then depthA.1 else 0
    let user := (asStr (lookupField m "user")).1
    let password := (asStr (lookupField m "password")).1
    let privateKey := (asStr (lookupField m "privateKey")).1
    if (user ≠ "" ∨ password ≠ "") ∧ privateKey ≠ "" then
      .error "username/password and privateKey cannot be provided at the same time"
    else
      .ok { url := urlA.1, branch := branch, depth := depth,
            user := user, password := password, privateKey := privateKey }
  | _ => .error "Git details must be an object"

/-- parseHTTPDetails from types.go. -/
def parseHTTPDetails (details : GoVal) : Except String HTTPDownloadDetails :=
  match details with
  | .obj m =>
    let urlA := asStr (lookupField m "url")
    if ¬ urlA.2 ∨ urlA.1 = "" then .error "HTTP URL is required"
    else .ok { url := urlA.1 }
  | _ => .error "HTTP details must be an object"

/-- parseS3Details from types.go: six mandatory string fields, checked in
source order. -/
def parseS3Details (details : GoVal) : Except String S3Details :=
  match details with
  | .obj m =>
    let epA := asStr (lookupField m "endpointUrl")
    if ¬ epA.2 ∨ epA.1 = "" then .error "S3 endpoint URL is required" else
    let bkA := asStr (lookupField m "bucketName")
    if ¬ bkA.2 ∨ bkA.1 = "" then .error "S3 bucket name is required" else
    let pathA := asStr (lookupField m "path")
    if ¬ pathA.2 ∨ pathA.1 = "" then .error "S3 path is required" else
    let akA := asStr (lookupField m "accessKey")
    if ¬ akA.2 ∨ akA.1 = "" then .error "S3 access key is required" else
    let skA := asStr (lookupField m "secretKey")
    if ¬ skA.2 ∨ skA.1 = "" then .error "S3 secret key is required" else
    let rgA := asStr (lookupField m "region")
    if ¬ rgA.2 ∨ rgA.1 = "" then .error "S3 region is required" else
    .ok { endpointURL := epA.1, bucketName := bkA.1, path := pathA.1,
          accessKey := akA.1, secretKey := skA.1, region := rgA.1,
          forcePathStyle := none, disableSSL := none }
  | _ => .error "S3 details must be an object"

end VolumeSyncer

namespace VolumeSyncer

/-! ## internal/syncer: the factory and constructed strategies -/

/-- A constructed strategy instance, carrying its validated details, target
path and the timeout handed over by the factory. -/
inductive Syncer where
  | ssh (d : SSHDetails) (targetPath : String) (timeout : Nat)
  | git (d : GitCloneDetails) (targetPath : String) (timeout : Nat)
  | http (d : HTTPDownloadDetails) (targetPath : String) (timeout : Nat)
  | s3 (d : S3Details) (targetPath : String) (timeout : Nat)
       (forcePathStyle : Bool) (disableSSL : Bool)
deriving DecidableEq, Repr

/-- The timeout a constructed strategy will use for its deadline. -/
def syncerTimeout : Syncer → Nat
  | .ssh _ _ t => t
  | .git _ _ t => t
  | .http _ _ t => t
  | .s3 _ _ t _ _ => t

/-- An observable side effect performed while building a strategy. -/
inductive Effect where
  | network
  | filesystem
deriving DecidableEq, Repr

/-- Outcomes of the S3 connectivity probes (the ListObjectsV2 test in
NewS3Syncer), first with the initially chosen path style, then with the
flipped one. -/
structure S3Env where
  firstProbeOk : Bool
  secondProbeOk : Bool
deriving DecidableEq, Repr

/-- NewS3Syncer from s3/s3_syncer.go: chooses path style and SSL settings
from the endpoint, creates a session (local, no I/O), then tests the
connection with a bounded object listing (network); on failure against a
non-AWS endpoint it retries once with the flipped path style (network). -/
def newS3Syncer (d : S3Details) (targetPath : String) (timeout : Nat)
    (env : S3Env) : Except String Syncer × List Effect :=
  let isAWSS3 := goContains d.endpointURL "amazonaws.com"
  let forcePathStyle := match d.forcePathStyle with
    | some b => b
    | none => if isAWSS3 then false else true
  let disableSSL := match d.disableSSL with
    | some b => b
    | none => goHasPfx d.endpointURL "http://"
  if env.firstProbeOk then
    (.ok (.s3 d targetPath timeout forcePathStyle disableSSL), [.network])
  else if isAWSS3 then
    (.error "failed to connect to AWS S3", [.network])
  else if env.secondProbeOk then
    (.ok (.s3 d targetPath timeout false disableSSL), [.network, .network])
  else
    (.error "failed to establish S3 connection with both path styles",
     [.network, .network])

/-- SyncerFactory.CreateSyncer from types.go, instrumented with the list of
side effects performed during construction. The ssh, git and http branches
only parse and validate; the s3 branch additionally runs NewS3Syncer. -/
def createSyncer (timeout : Nat) (env : S3Env) (source : Source)
    (targetPath : String) : Except String Syncer × List Effect :=
  match source.type with
  | "ssh" =>
    (match parseSSHDetails source.details with
     | .error e => (.error e, [])
     | .ok d => (.ok (.ssh d targetPath timeout), []))
  | "git" =>
    (match parseGitDetails source.details with
     | .error e => (.error e, [])
     | .ok d => (.ok (.git d targetPath timeout), []))
  | "http" =>
    (match parseHTTPDetails source.details with
     | .error e => (.error e, [])
     | .ok d => (.ok (.http d targetPath timeout), []))
  | "s3" =>
    (match parseS3Details source.details with
     | .error e => (.error e, [])
     | .ok d => newS3Syncer d targetPath timeout env)
  | t => (.error ("unsupported source type: " ++ t), [])

/-! ## internal/service/sync_service.go: the orchestrator -/

/-- SyncService.validateRequest. The nil-pointer guard of the Go code is
dropped because Lean values are non-nullable; the remaining checks are in
source order: source type present, details present, target path present,
source type known. -/
def validateRequest (req : SyncRequest) : Option SyncError :=
  if req.source.type = "" then
    some (newValidationError "source type is required")
  else if req.source.details matches GoVal.null then
    some (newValidationError "source details are required")
  else if req.target.path = "" then
    some (newValidationError "target path is required")
  else
    match req.source.type with
    | "ssh" => none
    | "git" => none
    | "http" => none
    | "s3" => none
    | t => some (newValidationError ("unsupported source type: " ++ t))

/-- Orchestrator state: the mutex-guarded busy flag together with ghost
instrumentation — the number of currently running background tasks and
counters of accepted jobs, finished jobs, and busy-flag clears performed by
the deferred block. -/
structure OrchState where
  busy : Bool
  running : Nat
  accepted : Nat
  finished : Nat
  busyClears : Nat
deriving DecidableEq, Repr

/-- The state of a freshly constructed SyncService. -/
def orchInit : OrchState := { busy := false, running := 0, accepted := 0,
                              finished := 0, busyClears := 0 }

/-- SyncService.StartSync: under the lock, reject when busy (with a
validation-typed error), else validate, else build the strategy, else set the
busy flag and launch one background task. Returns the new state and the error
returned to the caller (none means accepted). -/
def startSync (cfgTimeout : Nat) (env : S3Env) (s : OrchState)
    (req : SyncRequest) : OrchState × Option GoError :=
  if s.busy then
    (s, some (.syncErr (newValidationError "sync operation already in progress")))
  else
    match validateRequest req with
    | some e => (s, some (.syncErr e))
    | none =>
      match (createSyncer cfgTimeout env req.source req.target.path).1 with
      | .error msg => (s, some (.wrapped ("failed to create syncer: " ++ msg)))
      | .ok _ =>
        ({ s with busy := true, running := s.running + 1,
                  accepted := s.accepted + 1 }, none)

/-- Completion of the background task: its deferred block takes the lock and
clears the busy flag, regardless of the sync outcome. A finish event can only
be emitted by an existing task, so it is a no-op when nothing runs. -/
def finishTask (s : OrchState) : OrchState :=
  if s.running = 0 then s
  else
    { busy := false, running := s.running - 1, accepted := s.accepted,
      finished := s.finished + 1,
      busyClears := s.busyClears + (if s.busy then 1 else 0) }

/-- Serialized orchestrator events: a StartSync call, or the completion of
the background task. -/
inductive OrchEvent where
  | start (req : SyncRequest)
  | finish

/-- One serialized orchestrator step. -/
def orchStep (cfgTimeout : Nat) (env : S3Env) (s : OrchState) :
    OrchEvent → OrchState
  | .start req => (startSync cfgTimeout env s req).1
  | .finish => finishTask s

/-- Run a sequence of orchestrator events. -/
def orchRun (cfgTimeout : Nat) (env : S3Env) (s : OrchState)
    (evs : List OrchEvent) : OrchState :=
  evs.foldl (orchStep cfgTimeout env) s

/-- A state the service can reach from construction. -/
def OrchReachable (cfgTimeout : Nat) (env : S3Env) (s : OrchState) : Prop :=
  ∃ evs, orchRun cfgTimeout env orchInit evs = s

/-- The single-flight invariant: at most one task runs, the busy flag tracks
it exactly, the deferred block has cleared busy once per finished job, and
every accepted job is either finished or still running. -/
def OrchInv (s : OrchState) : Prop :=
  s.running ≤ 1 ∧ (s.busy = true ↔ s.running = 1) ∧
  s.busyClears = s.finished ∧ s.finished + s.running = s.accepted


end VolumeSyncer

namespace VolumeSyncer

/-! ## internal/syncer/git/git_syncer.go: validation and sync entry -/

/-- GitSyncer.validate: URL present, key material and username/password
mutually exclusive, and username and password paired both ways. -/
def gitValidate (d : GitCloneDetails) : Option String :=
  if d.url = "" then some "repository URL is required"
  else if d.privateKey ≠ "" ∧ (d.user ≠ "" ∧ d.password ≠ "") then
    some "cannot provide both private key and username/password authentication"
  else if d.user ≠ "" ∧ d.password = "" then
    some "password is required when username is provided"
  else if d.password ≠ "" ∧ d.user = "" then
    some "username is required when password is provided"
  else none

/-- GitSyncer.Sync runs validate as its very first step and returns its error
before touching the file system or spawning git; the remainder of Sync
(directory inspection, clone or update) is abstracted as restOutcome. -/
def gitSyncResult (d : GitCloneDetails) (restOutcome : Except String Unit) :
    Except String Unit :=
  match gitValidate d with
  | some e => .error e
  | none => restOutcome

/-! ## git safe replace (GitSyncer.safeCloneWithReplace) -/

/-- The three directory slots touched by a safe replace: the target, the
temporary staging clone beside it, and the timestamped backup. The content
type α stands for a full recursive directory tree. -/
structure ReplaceFS (α : Type) where
  target : Option α
  tmp : Option α
  backup : Option α
deriving DecidableEq, Repr

/-- Fault injection for one safe-replace run: the outcome of creating the
staging directory, of the clone into staging, and of each rename/removal. A
failed rename leaves both paths untouched (os.Rename is atomic). -/
structure ReplaceFaults (α : Type) where
  mkdirTempOk : Bool
  cloneResult : Except String α
  renameTargetToBackupOk : Bool
  renameTmpToTargetOk : Bool
  restoreBackupOk : Bool
  removeBackupOk : Bool
deriving Repr

/-- GitSyncer.safeCloneWithReplace: create staging beside the target, clone
into it (removing staging on any exit via the deferred RemoveAll), rename the
target to a backup, rename staging onto the target, restoring the backup if
that final rename fails, and removing the backup on success (a failed backup
removal is a non-fatal warning). -/
def safeCloneWithReplace {α : Type} (f : ReplaceFaults α) (fs : ReplaceFS α) :
    Except String Unit × ReplaceFS α :=
  if ¬ f.mkdirTempOk then
    (.error "failed to create temporary directory", fs)
  else
    match f.cloneResult with
    | .error e =>
      (.error ("clone failed, target directory preserved: " ++ e),
       { fs with tmp := none })
    | .ok tree =>
      let fs1 : ReplaceFS α := { fs with tmp := some tree }
      if ¬ f.renameTargetToBackupOk then
        (.error "failed to backup target directory, target preserved",
         { fs1 with tmp := none })
      else
        let fs2 : ReplaceFS α :=
          { fs1 with backup := fs1.target, target := none }
        if ¬ f.renameTmpToTargetOk then
          if f.restoreBackupOk then
            (.error "failed to move temporary clone to target, target restored",
             { fs2 with target := fs2.backup, backup := none, tmp := none })
          else
            (.error "failed to move temp and failed to restore backup",
             { fs2 with tmp := none })
        else
          let fs3 : ReplaceFS α :=
            { fs2 with target := fs2.tmp, tmp := none }
          if f.removeBackupOk then (.ok (), { fs3 with backup := none })
          else (.ok (), fs3)

/-! ## git branch checkout (GitSyncer.syncExistingRepo and cloneRepo)

The git subprocess is a collaborator; `checkoutOk b` abstracts the success of
`git checkout -B b origin/b` after the fetch, and `cloneOk b` the success of
`git clone --branch b` — each true exactly when branch b exists on the
remote. -/

/-- The branch-checkout phase of GitSyncer.syncExistingRepo: try the
requested branch; if that fails and the branch is main, fall back to master;
any other failure is fatal. Returns the branch finally checked out. -/
def checkoutExistingModel (branch : String) (checkoutOk : String → Bool) :
    Except String String :=
  if checkoutOk branch then .ok branch
  else if branch = "main" then
    if checkoutOk "master" then .ok "master"
    else .error "git checkout -B master failed"
  else .error ("git checkout -B " ++ branch ++ " failed")

/-- The branch selection of GitSyncer.cloneRepo: a non-empty requested branch
is passed to `git clone --branch` with no fallback of any kind; an empty one
clones the remote default branch. Returns the branch checked out by the
clone. -/
def cloneRepoModel (branch : String) (cloneOk : String → Bool)
    (defaultBranch : String) : Except String String :=
  if branch = "" then .ok defaultBranch
  else if cloneOk branch then .ok branch
  else .error "git clone failed"

/-! ## ephemeral SSH key files (git and ssh strategies) -/

/-- Fault injection for one git-strategy sync run that may materialize a
private key: presence of key material in the spec, and outcomes of base64
decoding, temp-file creation, key write, chmod, and the git operations
themselves. -/
structure GitKeyFaults where
  hasPrivateKey : Bool
  decodeOk : Bool
  createTempOk : Bool
  writeOk : Bool
  chmodOk : Bool
  gitOpsOk : Bool
deriving Repr

/-- GitSyncer.createTempKeyFile: create the temp file, write the key
(removing the file if the write fails), close, chmod 0600 (removing the file
if that fails). Returns the outcome and whether the key file exists on disk
afterwards. -/
def gitCreateTempKeyFile (f : GitKeyFaults) : Except String Unit × Bool :=
  if ¬ f.createTempOk then (.error "failed to create temporary key file", false)
  else if ¬ f.writeOk then
    (.error "failed to write private key to temporary file", false)
  else if ¬ f.chmodOk then
    (.error "failed to set permissions on temporary key file", false)
  else (.ok (), true)

/-- GitSyncer.setupSSHKey: nothing to do without key material; otherwise
decode the key and materialize it via createTempKeyFile. Returns the outcome
and whether a key file exists when setupSSHKey returns. -/
def gitSetupSSHKey (f : GitKeyFaults) : Except String Unit × Bool :=
  if ¬ f.hasPrivateKey then (.ok (), false)
  else if ¬ f.decodeOk then (.error "failed to decode base64 private key", false)
  else gitCreateTempKeyFile f

/-- GitSyncer.cloneRepo viewed through the key-file lifecycle: setupSSHKey,
then (on success) the deferred cleanup removes the key file at every exit of
the clone, successful or not. Returns whether a key file remains after the
call. -/
def gitCloneRepoKeyFile (f : GitKeyFaults) : Except String Unit × Bool :=
  match gitSetupSSHKey f with
  | (.error e, fileExists) => (.error e, fileExists)
  | (.ok _, _) =>
    let result : Except String Unit :=
      if f.gitOpsOk then .ok () else .error "git clone failed"
    (result, false)

/-- GitSyncer.syncExistingRepo viewed through the key-file lifecycle: the
same setupSSHKey / deferred-cleanup bracket around the fetch, checkout, reset
and clean operations. -/
def gitSyncExistingKeyFile (f : GitKeyFaults) : Except String Unit × Bool :=
  match gitSetupSSHKey f with
  | (.error e, fileExists) => (.error e, fileExists)
  | (.ok _, _) =>
    let result : Except String Unit :=
      if f.gitOpsOk then .ok () else .error "git sync failed"
    (result, false)

/-- The authentication mode selected by SSHSyncer.Sync, in source order: a
key file path, inline base64 key material, a password, or agent/no auth. -/
inductive SshAuthMode where
  | keyFromPath
  | keyInline
  | password
  | agent
deriving DecidableEq, Repr

/-- Fault injection for one ssh-strategy sync run. -/
structure SshKeyFaults where
  mode : SshAuthMode
  ensureDirOk : Bool
  readFileOk : Bool
  decodeOk : Bool
  createTempOk : Bool
  writeOk : Bool
  chmodOk : Bool
  sshpassAvailable : Bool
  connTestOk : Bool
  rsyncOk : Bool
deriving Repr

/-- SSHSyncer.createTempKeyFile: create the temp file, chmod 0600 (removing
the file on failure), write the key (removing the file on failure). -/
def sshCreateTempKeyFile (f : SshKeyFaults) : Except String Unit × Bool :=
  if ¬ f.createTempOk then (.error "failed to create temporary key file", false)
  else if ¬ f.chmodOk then (.error "chmod failed", false)
  else if ¬ f.writeOk then (.error "write failed", false)
  else (.ok (), true)

/-- SSHSyncer.Sync viewed through the key-file lifecycle: ensure the target
directory, then per auth mode materialize a key file (with a deferred remove
registered right after creation), test the connection, and run rsync; every
return path runs the deferred remove. Returns the outcome and whether a key
file remains after Sync returns. -/
def sshSyncKeyFile (f : SshKeyFaults) : Except String Unit × Bool :=
  if ¬ f.ensureDirOk then (.error "failed to create target directory", false)
  else
    match f.mode with
    | .keyFromPath =>
      if ¬ f.readFileOk then (.error "failed to read private key file", false)
      else
        match sshCreateTempKeyFile f with
        | (.error e, fileExists) => (.error e, fileExists)
        | (.ok _, _) =>
          if ¬ f.connTestOk then (.error "SSH connection test failed", false)
          else if ¬ f.rsyncOk then (.error "rsync failed", false)
          else (.ok (), false)
    | .keyInline =>
      if ¬ f.decodeOk then (.error "failed to decode base64 private key", false)
      else
        match sshCreateTempKeyFile f with
        | (.error e, fileExists) => (.error e, fileExists)
        | (.ok _, _) =>
          if ¬ f.connTestOk then (.error "SSH connection test failed", false)
          else if ¬ f.rsyncOk then (.error "rsync failed", false)
          else (.ok (), false)
    | .password =>
      if ¬ f.sshpassAvailable then
        (.error "password authentication requires sshpass", false)
      else if ¬ f.connTestOk then (.error "SSH connection test failed", false)
      else if ¬ f.rsyncOk then (.error "rsync failed", false)
      else (.ok (), false)
    | .agent =>
      if ¬ f.connTestOk then (.error "SSH connection test failed", false)
      else if ¬ f.rsyncOk then (.error "rsync failed", false)
      else (.ok (), false)

end VolumeSyncer

namespace VolumeSyncer

/-! ## internal/syncer/s3/s3_syncer.go: listing and download -/

/-- S3Syncer.listObjects: the paginated listing returns the keys under the
configured prefix (contents, as reported by the object store); the code keeps
exactly those keys that do not end in the path separator, in order. -/
def s3ListObjects (contents : List String) : List String :=
  contents.filter (fun k => ¬ goHasSfx k "/")

/-- The relative path computed by S3Syncer.downloadObject: the key with the
configured prefix removed, falling back to the key's base name when the
relative path would be empty. -/
def s3RelPath (pathPfx key : String) : String :=
  let r := goTrimPfx key pathPfx
  if r = "" then goBase key else r

/-- The local path S3Syncer.downloadObject writes to. -/
def s3LocalPath (targetPath pathPfx key : String) : String :=
  goPathJoin2 targetPath (s3RelPath pathPfx key)

/-- os.Create on a flat file-set model: creating a path that already exists
truncates it in place and adds nothing. -/
def fsCreate (fs : List String) (p : String) : List String :=
  if p ∈ fs then fs else fs ++ [p]

/-- os.Remove on the file-set model. -/
def fsRemove (fs : List String) (p : String) : List String :=
  fs.filter (fun q => q ≠ p)

/-- The download loop of S3Syncer.Sync over the filtered objects: for each
key, create the local file and stream the object into it; when the download
of a key fails, delete the partially written local file and abort with an
error. `downloadOk` abstracts the object-store collaborator. Returns the
outcome and the final set of local files. -/
def s3DownloadAll (targetPath pathPfx : String) (downloadOk : String → Bool) :
    List String → List String → Except String Unit × List String
  | [], fs => (.ok (), fs)
  | k :: rest, fs =>
    let lp := s3LocalPath targetPath pathPfx k
    let fs1 := fsCreate fs lp
    if downloadOk k then s3DownloadAll targetPath pathPfx downloadOk rest fs1
    else (.error ("failed to download object " ++ k), fsRemove fs1 lp)

/-- S3Syncer.Sync: list the objects under the prefix, filter out directory
placeholders, and download each remaining object. -/
def s3Sync (targetPath pathPfx : String) (contents : List String)
    (downloadOk : String → Bool) (fs : List String) :
    Except String Unit × List String :=
  s3DownloadAll targetPath pathPfx downloadOk (s3ListObjects contents) fs

/-! ## internal/syncer/http/http_syncer.go: filename resolution -/

/-- The two quote characters trimmed from a Content-Disposition filename by
strings.Trim(fn, quote characters). -/
def cdQuoteChars : List Char := [Char.ofNat 34, Char.ofNat 39]

/-- HTTPSyncer.Sync filename resolution: the last segment of the URL path
(with a fixed fallback when that is degenerate), overridden by the substring
after `filename=` in the Content-Disposition header, trimmed of quotes, when
present and non-empty. The resolved name is used verbatim. -/
def httpResolveFilename (urlPath contentDisposition : String) : String :=
  let fn0 := goBase urlPath
  let fn1 := if fn0 = "." ∨ fn0 = "/" ∨ fn0 = "" then "downloaded_file" else fn0
  if contentDisposition = "" then fn1
  else
    match goIndexOf contentDisposition "filename=" with
    | none => fn1
    | some i =>
      let fn := goTrimCut (goStrDrop contentDisposition (i + 9)) cdQuoteChars
      if fn ≠ "" then fn else fn1

/-- The output path HTTPSyncer.Sync creates: path.Join of the target path and
the resolved filename. -/
def httpOutPath (targetPath urlPath contentDisposition : String) : String :=
  goPathJoin2 targetPath (httpResolveFilename urlPath contentDisposition)

end VolumeSyncer

namespace VolumeSyncer

/-! ## Concrete fixtures used by witnesses and counterexamples -/

/-- A valid ssh details object. -/
def sshDetailsVal : GoVal :=
  .obj [("host", .str "h"), ("user", .str "u"), ("path", .str "/d")]

/-- A valid ssh sync request. -/
def reqSshOk : SyncRequest := ⟨⟨"ssh", sshDetailsVal⟩, ⟨"/vol"⟩⟩

/-- A request with an unsupported source type. -/
def reqFtp : SyncRequest := ⟨⟨"ftp", .obj [("x", .str "y")]⟩, ⟨"/vol"⟩⟩

/-- The orchestrator state right after one accepted job. -/
def busyState : OrchState :=
  { busy := true, running := 1, accepted := 1, finished := 0, busyClears := 0 }

/-- An S3 probe environment in which connectivity tests succeed. -/
def envOk : S3Env := ⟨true, true⟩

/-- The gin JSON binding of the POST /sync body into models.SyncRequest:
source.type, source.details and target.path are extracted into the struct
fields; any other key of the body — including a timeout key — has no
corresponding field and is dropped. -/
def bindSyncRequest (body : GoVal) : Except String SyncRequest :=
  match body with
  | .obj m =>
    (match lookupField m "source" with
     | some (.obj sm) =>
       let typeA := asStr (lookupField sm "type")
       if ¬ typeA.2 ∨ typeA.1 = "" then .error "source type is required" else
       (match lookupField sm "details" with
        | none => .error "source details are required"
        | some d =>
          (match lookupField m "target" with
           | some (.obj tm) =>
             let pathA := asStr (lookupField tm "path")
             if ¬ pathA.2 ∨ pathA.1 = "" then .error "target path is required"
             else .ok ⟨⟨typeA.1, d⟩, ⟨pathA.1⟩⟩
           | _ => .error "target is required"))
     | _ => .error "source is required")
  | _ => .error "invalid request format"

/-- Modelled from the spec: the per-job deadline the specification describes
("SyncJob: {spec, target, timeout: duration}", "the optional timeout field of
the POST /sync body", default applying only when the request omits it). No
code under src implements such a field on the active request model; this
definition follows the spec's words for comparison with the code. -/
def specJobTimeout (body : GoVal) (defTimeout : Nat) : Nat :=
  match body with
  | .obj m =>
    (match lookupField m "timeout" with
     | some (.num n) => n.toNat
     | _ => defTimeout)
  | _ => defTimeout

/-- An ssh details object with host and user but no remote path. -/
def sshNoPathVal : GoVal := .obj [("host", .str "h"), ("user", .str "u")]

/-- A git details object with a username but no password. -/
def gitUserOnlyVal : GoVal :=
  .obj [("url", .str "https://x/r.git"), ("user", .str "alice")]

/-- A POST /sync body for an http source carrying a timeout field of 1. -/
def syncBodyWithTimeout : GoVal :=
  .obj [("source", .obj [("type", .str "http"),
                          ("details", .obj [("url", .str "http://x/f.bin")])]),
        ("target", .obj [("path", .str "/vol")]),
        ("timeout", .num 1)]

/-- A valid s3 details object for an S3-compatible endpoint. -/
def s3DetailsVal : GoVal :=
  .obj [("endpointUrl", .str "http://minio:9000"), ("bucketName", .str "b"),
        ("path", .str "a/"), ("accessKey", .str "k"),
        ("secretKey", .str "s"), ("region", .str "r")]

/-- The git collaborator for a remote whose only branch is master: checking
out or cloning a branch succeeds exactly for master. -/
def masterOnly : String → Bool := fun b => b == "master"

/-- An object-store collaborator that fails exactly on the key a/bad. -/
def okExceptBad : String → Bool := fun k => ¬ (k == "a/bad")

/-! ## Helper theorems: the orchestrator invariant is inductive -/

theorem orchInv_init : OrchInv orchInit := by
  simp [OrchInv, orchInit]

theorem orchInv_step (cfgTimeout : Nat) (env : S3Env) (s : OrchState)
    (e : OrchEvent) (h : OrchInv s) : OrchInv (orchStep cfgTimeout env s e) := by
  obtain ⟨h1, h2, h3, h4⟩ := h
  cases e with
  | start req =>
    simp only [orchStep, startSync]
    by_cases hb : s.busy
    · simp [hb]
      exact ⟨h1, h2, h3, h4⟩
    · have hb' : s.busy = false := by simpa using hb
      have hr : s.running = 0 := by
        rcases Nat.lt_or_ge s.running 1 with hlt | hge
        · omega
        · exfalso
          have : s.running = 1 := by omega
          have := h2.mpr this
          rw [hb'] at this
          exact Bool.false_ne_true this
      simp only [hb']
      cases hv : validateRequest req with
      | some err => simp [OrchInv]; exact ⟨h1, h2, h3, h4⟩
      | none =>
        cases hc : (createSyncer cfgTimeout env req.source req.target.path).1 with
        | error msg => simp [OrchInv]; exact ⟨h1, h2, h3, h4⟩
        | ok y =>
          simp [OrchInv, hr]
          omega
  | finish =>
    simp only [orchStep, finishTask]
    by_cases hr : s.running = 0
    · simp [hr]
      exact ⟨h1, h2, h3, h4⟩
    · have hr1 : s.running = 1 := by omega
      have hbt : s.busy = true := h2.mpr hr1
      simp [hr, OrchInv, hr1, hbt]
      omega

theorem orchInv_run (cfgTimeout : Nat) (env : S3Env) (evs : List OrchEvent) :
    ∀ s : OrchState, OrchInv s → OrchInv (orchRun cfgTimeout env s evs) := by
  induction evs with
  | nil => intro s h; simpa [orchRun] using h
  | cons e rest ih =>
    intro s h
    have h1 := orchInv_step cfgTimeout env s e h
    simpa [orchRun, List.foldl_cons] using ih _ h1

theorem orchInv_reachable (cfgTimeout : Nat) (env : S3Env) (s : OrchState)
    (h : OrchReachable cfgTimeout env s) : OrchInv s := by
  obtain ⟨evs, hev⟩ := h
  simpa [hev] using orchInv_run cfgTimeout env evs orchInit orchInv_init

/-! ## C1: single-flight orchestration -/

/-- C1: in every reachable orchestrator state at most one accepted job is
executing; a StartSync call that arrives while the busy flag is set returns
the busy rejection and leaves the state unchanged (no second task); and the
deferred block clears the busy flag exactly once per accepted job when that
job finishes, regardless of its outcome (busyClears tracks finished jobs, and
every accepted job is finished or running). -/
theorem C1_single_flight (cfgT : Nat) (env : S3Env) (s : OrchState)
    (h : OrchReachable cfgT env s) :
    s.running ≤ 1 ∧
    s.busyClears = s.finished ∧ s.finished + s.running = s.accepted ∧
    (s.busy = true → ∀ req, startSync cfgT env s req =
      (s, some (.syncErr (newValidationError "sync operation already in progress")))) ∧
    (s.running = 1 → finishTask s =
      { busy := false, running := 0, accepted := s.accepted,
        finished := s.finished + 1, busyClears := s.busyClears + 1 }) := by
  obtain ⟨h1, h2, h3, h4⟩ := orchInv_reachable cfgT env s h
  refine ⟨h1, h3, h4, ?_, ?_⟩
  · intro hb req
    simp [startSync, hb]
  · intro hr
    have hb := h2.mpr hr
    simp [finishTask, hr, hb]

/-- C1 witness: the state after one accepted ssh job is reachable, and there
a second StartSync is rejected busy without state change, while the task's
completion clears the flag once. -/
theorem C1_single_flight_witness :
    busyState.running ≤ 1 ∧
    startSync 5 envOk busyState reqFtp =
      (busyState,
       some (.syncErr (newValidationError "sync operation already in progress"))) ∧
    finishTask busyState =
      { busy := false, running := 0, accepted := 1, finished := 1,
        busyClears := 1 } := by
  have h := C1_single_flight 5 envOk busyState ⟨[.start reqSshOk], by decide⟩
  refine ⟨h.1, h.2.2.2.1 rfl reqFtp, ?_⟩
  have h5 := h.2.2.2.2 rfl
  simpa [busyState] using h5

/-! ## C2: safe-replace atomicity -/

/-- C2: for a safe replace starting from a target holding t0, whenever
rollback remains possible — the staging clone fails, or the rename of the
target to the backup fails, or the final rename fails and the restore
succeeds — the operation returns an error and the file system is exactly as
before (target content t0, no staging or backup leftovers); and when the
clone and both renames succeed the target holds the newly cloned tree. -/
theorem C2_safe_replace {α : Type} (f : ReplaceFaults α) (t0 : α)
    (hmk : f.mkdirTempOk = true) :
    (((∃ e, f.cloneResult = .error e) ∨ f.renameTargetToBackupOk = false ∨
      (f.renameTmpToTargetOk = false ∧ f.restoreBackupOk = true)) →
      (∃ msg, (safeCloneWithReplace f ⟨some t0, none, none⟩).1 = .error msg) ∧
      (safeCloneWithReplace f ⟨some t0, none, none⟩).2 =
        ⟨some t0, none, none⟩) ∧
    (∀ tree, f.cloneResult = .ok tree → f.renameTargetToBackupOk = true →
      f.renameTmpToTargetOk = true →
      (safeCloneWithReplace f ⟨some t0, none, none⟩).1 = .ok () ∧
      (safeCloneWithReplace f ⟨some t0, none, none⟩).2.target = some tree) := by
  obtain ⟨mk, cr, rb, rt, rs, rm⟩ := f
  simp only at hmk
  subst hmk
  constructor
  · rintro (⟨e, he⟩ | hrb | ⟨hrt, hrs⟩)
    · simp only at he
      subst he
      exact ⟨⟨_, rfl⟩, rfl⟩
    · simp only at hrb
      subst hrb
      cases cr with
      | error e => exact ⟨⟨_, rfl⟩, rfl⟩
      | ok tree => exact ⟨⟨_, rfl⟩, rfl⟩
    · simp only at hrt hrs
      subst hrt; subst hrs
      cases cr with
      | error e => exact ⟨⟨_, rfl⟩, rfl⟩
      | ok tree =>
        cases rb with
        | false => exact ⟨⟨_, rfl⟩, rfl⟩
        | true => exact ⟨⟨_, rfl⟩, rfl⟩
  · intro tree hcr hrb hrt
    simp only at hcr hrb hrt
    subst hcr; subst hrb; subst hrt
    cases rm with
    | false => exact ⟨rfl, rfl⟩
    | true => exact ⟨rfl, rfl⟩

/-- C2 witness: a failed staging clone leaves the target with its original
content, and a fully successful replace installs the cloned tree. -/
theorem C2_safe_replace_witness :
    (safeCloneWithReplace
      (⟨true, .error "boom", true, true, true, true⟩ : ReplaceFaults Nat)
      ⟨some 7, none, none⟩).2 = ⟨some 7, none, none⟩ ∧
    (safeCloneWithReplace
      (⟨true, .ok 9, true, true, true, true⟩ : ReplaceFaults Nat)
      ⟨some 7, none, none⟩).2.target = some 9 := by
  have h1 := C2_safe_replace
    (⟨true, .error "boom", true, true, true, true⟩ : ReplaceFaults Nat) 7 rfl
  have h2 := C2_safe_replace
    (⟨true, .ok 9, true, true, true, true⟩ : ReplaceFaults Nat) 7 rfl
  exact ⟨(h1.1 (Or.inl ⟨"boom", rfl⟩)).2, (h2.2 9 rfl rfl rfl).2⟩

/-! ## C5: busy check precedes validation -/

/-- C5 counterexample: the busy-accepting state is reachable; the request
with unsupported type ftp would fail validation with a message naming the
invalid input, but submitted while busy it is answered with the busy
rejection instead — StartSync consults the busy flag before validating, so
the claim's promised ValidationError describing the invalid input is not
returned. -/
theorem C5_counterexample :
    OrchReachable 5 envOk busyState ∧
    validateRequest reqFtp =
      some (newValidationError "unsupported source type: ftp") ∧
    (startSync 5 envOk busyState reqFtp).2 =
      some (.syncErr (newValidationError "sync operation already in progress")) ∧
    newValidationError "sync operation already in progress" ≠
      newValidationError "unsupported source type: ftp" :=
  ⟨⟨[.start reqSshOk], by decide⟩, by decide, by decide, by decide⟩

/-- C5 amended: StartSync consults the busy flag first — while busy every
request, valid or not, is answered with the busy rejection (itself built by
NewValidationError) and nothing else runs; only when not busy is the request
validated, and then a validation failure is returned before the factory or
the busy flag are touched. -/
theorem C5_amended (cfgT : Nat) (env : S3Env) (s : OrchState)
    (req : SyncRequest) :
    (s.busy = true → startSync cfgT env s req =
      (s, some (.syncErr (newValidationError "sync operation already in progress")))) ∧
    (s.busy = false → ∀ e, validateRequest req = some e →
      startSync cfgT env s req = (s, some (.syncErr e))) := by
  constructor
  · intro hb
    simp [startSync, hb]
  · intro hb e hv
    simp [startSync, hb, hv]

/-- C5 amended witness: a busy rejection for an invalid request while busy,
and the proper validation error for the same request when idle. -/
theorem C5_amended_witness :
    startSync 5 envOk busyState reqFtp =
      (busyState,
       some (.syncErr (newValidationError "sync operation already in progress"))) ∧
    startSync 5 envOk orchInit reqFtp =
      (orchInit,
       some (.syncErr (newValidationError "unsupported source type: ftp"))) :=
  ⟨(C5_amended 5 envOk busyState reqFtp).1 rfl,
   (C5_amended 5 envOk orchInit reqFtp).2 rfl
     (newValidationError "unsupported source type: ftp") (by decide)⟩

/-! ## C6: branch fallback main to master -/

/-- C6 counterexample: against a master-only remote, requesting branch main
succeeds with master on the in-place update path, but the clone path (used
for fresh clones and for safe-replace staging) hard-fails — git clone is
invoked with --branch main and there is no fallback. -/
theorem C6_counterexample :
    checkoutExistingModel "main" masterOnly = .ok "master" ∧
    cloneRepoModel "main" masterOnly "master" = .error "git clone failed" := by
  constructor <;> rfl

/-- C6 amended: the main-to-master fallback exists only on the in-place
update path of an existing matching repository; on the clone path a requested
main branch missing from the remote is a hard failure. -/
theorem C6_amended (checkOk : String → Bool) (defBranch : String)
    (hmain : checkOk "main" = false) (hmaster : checkOk "master" = true) :
    checkoutExistingModel "main" checkOk = .ok "master" ∧
    cloneRepoModel "main" checkOk defBranch = .error "git clone failed" := by
  constructor
  · simp [checkoutExistingModel, hmain, hmaster]
  · simp [cloneRepoModel, hmain]

/-- C6 amended witness at the master-only remote. -/
theorem C6_amended_witness :
    checkoutExistingModel "main" masterOnly = .ok "master" ∧
    cloneRepoModel "main" masterOnly "x" = .error "git clone failed" :=
  C6_amended masterOnly "x" (by decide) (by decide)

end VolumeSyncer

namespace VolumeSyncer

/-! ## C3: factory purity -/

/-- C3 counterexample: building a strategy for the s3 kind from valid details
performs a network connectivity probe inside the factory call — the effect
list of the construction is not empty, refuting the claim that building a
strategy performs no network and no filesystem access for every source
kind. -/
theorem C3_counterexample :
    (createSyncer 300 envOk ⟨"s3", s3DetailsVal⟩ "/vol").2 = [Effect.network] ∧
    ([Effect.network] : List Effect) ≠ [] := by
  exact ⟨rfl, by decide⟩

/-- C3 amended: building a strategy for the ssh, git and http kinds is pure
parse and validation — no effect of any kind is performed — while building
an s3 strategy performs network connectivity probes but never touches the
filesystem. -/
theorem C3_amended (t : Nat) (env : S3Env) (d : GoVal) (p : String) :
    (createSyncer t env ⟨"ssh", d⟩ p).2 = [] ∧
    (createSyncer t env ⟨"git", d⟩ p).2 = [] ∧
    (createSyncer t env ⟨"http", d⟩ p).2 = [] ∧
    Effect.filesystem ∉ (createSyncer t env ⟨"s3", d⟩ p).2 := by
  refine ⟨?_, ?_, ?_, ?_⟩
  · cases h : parseSSHDetails d <;> simp [createSyncer, h]
  · cases h : parseGitDetails d <;> simp [createSyncer, h]
  · cases h : parseHTTPDetails d <;> simp [createSyncer, h]
  · cases h : parseS3Details d with
    | error e => simp [createSyncer, h]
    | ok dd =>
      simp only [createSyncer, h, newS3Syncer]
      split
      · simp
      · split
        · simp
        · split <;> simp

/-! ## C4: cross-field validation before construction -/

/-- C4 counterexample: an ssh spec with no remote path parses without error,
the factory constructs the strategy, and the orchestrator accepts the job and
launches the background task that will invoke sync(); likewise a git spec
with a username and no password parses without error and the factory
constructs the strategy — neither cross-field rule produces a validation
error before strategy construction. -/
theorem C4_counterexample :
    parseSSHDetails sshNoPathVal = .ok ⟨"h", 22, "u", "", "", "", ""⟩ ∧
    (createSyncer 5 envOk ⟨"ssh", sshNoPathVal⟩ "/vol").1 =
      .ok (.ssh ⟨"h", 22, "u", "", "", "", ""⟩ "/vol" 5) ∧
    (startSync 5 envOk orchInit ⟨⟨"ssh", sshNoPathVal⟩, ⟨"/vol"⟩⟩).2 = none ∧
    (startSync 5 envOk orchInit ⟨⟨"ssh", sshNoPathVal⟩, ⟨"/vol"⟩⟩).1.running = 1 ∧
    parseGitDetails gitUserOnlyVal =
      .ok ⟨"https://x/r.git", "", 0, "alice", "", ""⟩ ∧
    (createSyncer 5 envOk ⟨"git", gitUserOnlyVal⟩ "/vol").1 =
      .ok (.git ⟨"https://x/r.git", "", 0, "alice", "", ""⟩ "/vol" 5) := by
  refine ⟨by decide, by decide, by decide, by decide, by decide, by decide⟩

/-- C4 amended: the factory's cross-field validation enforces exactly the
mutual-exclusion rules — every successfully parsed ssh spec has no password
or no key material, and every successfully parsed git spec has no
username/password or no private key; the ssh remote path is not required at
construction (a path-less spec parses), and a git username without password
is rejected not by the factory but by the git syncer's own validate as the
first step of sync(). -/
theorem C4_amended :
    (∀ d r, parseSSHDetails d = .ok r →
      r.password = "" ∨ (r.privateKey = "" ∧ r.keyPath = "")) ∧
    (∀ d r, parseGitDetails d = .ok r →
      ¬ ((r.user ≠ "" ∨ r.password ≠ "") ∧ r.privateKey ≠ "")) ∧
    parseSSHDetails sshNoPathVal = .ok ⟨"h", 22, "u", "", "", "", ""⟩ ∧
    (∀ r rest, r.url ≠ "" → r.user ≠ "" → r.password = "" →
      gitSyncResult r rest =
        .error "password is required when username is provided") := by
  refine ⟨?_, ?_, by decide, ?_⟩
  · intro d r h
    cases d
    case str s => exact Except.noConfusion h
    case num n => exact Except.noConfusion h
    case boolean b => exact Except.noConfusion h
    case null => exact Except.noConfusion h
    case other => exact Except.noConfusion h
    case obj m =>
      simp only [parseSSHDetails] at h
      split at h
      · exact absurd h (by simp)
      · split at h
        · exact absurd h (by simp)
        · split at h
          · exact absurd h (by simp)
          · rename_i hguard
            rw [Except.ok.injEq] at h
            subst h
            push_neg at hguard
            by_cases hp : (asStr (lookupField m "password")).1 = ""
            · exact Or.inl hp
            · exact Or.inr (hguard hp)
  · intro d r h
    cases d
    case str s => exact Except.noConfusion h
    case num n => exact Except.noConfusion h
    case boolean b => exact Except.noConfusion h
    case null => exact Except.noConfusion h
    case other => exact Except.noConfusion h
    case obj m =>
      simp only [parseGitDetails] at h
      split at h
      · exact absurd h (by simp)
      · split at h
        · exact absurd h (by simp)
        · rename_i hguard
          rw [Except.ok.injEq] at h
          subst h
          push_neg at hguard
          rintro ⟨hup, hpk⟩
          exact hpk (hguard hup)
  · intro r rest hurl huser hpw
    simp [gitSyncResult, gitValidate, hurl, huser, hpw]

/-- C4 amended witness: the mutual-exclusion conclusions at the parsed
path-less ssh spec, and the in-sync rejection of a concrete git spec with
username and no password. -/
theorem C4_amended_witness :
    ((⟨"h", 22, "u", "", "", "", ""⟩ : SSHDetails).password = "" ∨
      ((⟨"h", 22, "u", "", "", "", ""⟩ : SSHDetails).privateKey = "" ∧
       (⟨"h", 22, "u", "", "", "", ""⟩ : SSHDetails).keyPath = "")) ∧
    ¬ (((⟨"https://x/r.git", "", 0, "alice", "", ""⟩ : GitCloneDetails).user ≠ "" ∨
        (⟨"https://x/r.git", "", 0, "alice", "", ""⟩ : GitCloneDetails).password ≠ "") ∧
       (⟨"https://x/r.git", "", 0, "alice", "", ""⟩ : GitCloneDetails).privateKey ≠ "") ∧
    gitSyncResult ⟨"https://x/r.git", "", 0, "alice", "", ""⟩ (.ok ()) =
      .error "password is required when username is provided" := by
  have h := C4_amended
  refine ⟨h.1 sshNoPathVal _ (by decide), ?_, ?_⟩
  · exact h.2.1 gitUserOnlyVal _ (by decide)
  · exact h.2.2.2 ⟨"https://x/r.git", "", 0, "alice", "", ""⟩ (.ok ())
      (by decide) (by decide) rfl

/-! ## C7: per-job timeout -/

/-- C7 counterexample: a POST /sync body carrying timeout 1 binds to a
request in which the field is dropped, and the factory builds the strategy
with the configured default 300 — the deadline is not derived from the
request's timeout (the spec-modelled per-job timeout of this body is 1, not
300). -/
theorem C7_counterexample :
    ((bindSyncRequest syncBodyWithTimeout).toOption.map (fun req =>
      ((createSyncer 300 envOk req.source req.target.path).1.toOption.map
        syncerTimeout)) = some (some 300)) ∧
    specJobTimeout syncBodyWithTimeout 300 = 1 ∧
    (300 : Nat) ≠ 1 := by
  refine ⟨by decide, by decide, by decide⟩

/-- C7 amended: for each of the four source kinds an accepted job can have
(validation admits only ssh, git, http, s3), every strategy the factory
constructs carries the factory's configured default timeout — the deadline of
an accepted job is always the service-wide default, never a per-request
value, since the active request model has no timeout field. -/
theorem C7_amended (t : Nat) (env : S3Env) (d : GoVal) (p : String)
    (y : Syncer) :
    ((createSyncer t env ⟨"ssh", d⟩ p).1 = .ok y → syncerTimeout y = t) ∧
    ((createSyncer t env ⟨"git", d⟩ p).1 = .ok y → syncerTimeout y = t) ∧
    ((createSyncer t env ⟨"http", d⟩ p).1 = .ok y → syncerTimeout y = t) ∧
    ((createSyncer t env ⟨"s3", d⟩ p).1 = .ok y → syncerTimeout y = t) := by
  refine ⟨?_, ?_, ?_, ?_⟩
  · simp only [createSyncer]
    cases parseSSHDetails d <;> intro h
    · exact Except.noConfusion h
    · injection h with h1
      subst h1
      rfl
  · simp only [createSyncer]
    cases parseGitDetails d <;> intro h
    · exact Except.noConfusion h
    · injection h with h1
      subst h1
      rfl
  · simp only [createSyncer]
    cases parseHTTPDetails d <;> intro h
    · exact Except.noConfusion h
    · injection h with h1
      subst h1
      rfl
  · simp only [createSyncer]
    cases parseS3Details d <;> intro h
    · exact Except.noConfusion h
    · rename_i dd
      revert h
      simp only [newS3Syncer]
      split <;> intro h
      · injection h with h1
        subst h1
        rfl
      · revert h
        split <;> intro h
        · exact Except.noConfusion h
        · revert h
          split <;> intro h
          · injection h with h1
            subst h1
            rfl
          · exact Except.noConfusion h

/-- C7 amended witness: the http strategy built from the bound body of the
counterexample carries the default timeout 300. -/
theorem C7_amended_witness :
    syncerTimeout (.http ⟨"http://x/f.bin"⟩ "/vol" 300) = 300 :=
  (C7_amended 300 envOk (.obj [("url", .str "http://x/f.bin")]) "/vol"
    (.http ⟨"http://x/f.bin"⟩ "/vol" 300)).2.2.1 (by decide)

end VolumeSyncer

namespace VolumeSyncer

/-! ## C8: object-store download set -/

/-- Helper: when every download succeeds, the loop downloads each filtered
object to its local path and returns success. -/
theorem s3DownloadAll_ok (target pfx : String) (downloadOk : String → Bool) :
    ∀ (objs : List String) (fs0 : List String),
      (∀ j ∈ objs, downloadOk j = true) →
      s3DownloadAll target pfx downloadOk objs fs0 =
        (.ok (), objs.foldl
          (fun acc j => fsCreate acc (s3LocalPath target pfx j)) fs0) := by
  intro objs
  induction objs with
  | nil => intro fs0 _; rfl
  | cons j js ih =>
    intro fs0 h
    have hj := h j (by simp)
    simp only [s3DownloadAll, hj, if_true, List.foldl_cons]
    exact ih _ (fun x hx => h x (List.mem_cons_of_mem _ hx))

/-- C8: the S3 sync downloads exactly the listed keys that do not end in the
path separator — on success the written file set is precisely the local path
of each filtered key, a failing download deletes the partially written local
file and aborts with an error naming the key, and on the claim's concrete
listing keys a/, a/x.txt, a/b/y.txt under prefix a/ the downloaded set is
exactly x.txt and b/y.txt relative to the target, with nothing for the a/
placeholder. -/
theorem C8_object_store (target pfx : String) (downloadOk : String → Bool)
    (objs : List String) (k : String) (rest : List String)
    (fs0 fs : List String)
    (hall : ∀ j ∈ objs, downloadOk j = true) (hk : downloadOk k = false) :
    (s3DownloadAll target pfx downloadOk objs fs0 =
      (.ok (), objs.foldl
        (fun acc j => fsCreate acc (s3LocalPath target pfx j)) fs0)) ∧
    ((s3DownloadAll target pfx downloadOk (k :: rest) fs).1 =
      .error ("failed to download object " ++ k) ∧
      s3LocalPath target pfx k ∉
        (s3DownloadAll target pfx downloadOk (k :: rest) fs).2) ∧
    s3Sync "/t" "a/" ["a/", "a/x.txt", "a/b/y.txt"] (fun _ => true) [] =
      (.ok (), ["/t/x.txt", "/t/b/y.txt"]) := by
  refine ⟨s3DownloadAll_ok target pfx downloadOk objs fs0 hall, ⟨?_, ?_⟩, ?_⟩
  · simp [s3DownloadAll, hk]
  · simp [s3DownloadAll, hk, fsRemove, List.mem_filter]
  · rfl

/-- C8 witness: a one-object listing downloads to the expected local path,
and a failing download of key a/bad leaves no a/bad file behind while
surfacing the error. -/
theorem C8_object_store_witness :
    s3DownloadAll "/t" "a/" okExceptBad ["a/x.txt"] [] =
      (.ok (), [("/t/x.txt" : String)]) ∧
    (s3DownloadAll "/t" "a/" okExceptBad ["a/bad"] []).1 =
      .error "failed to download object a/bad" ∧
    ("/t/bad" : String) ∉ (s3DownloadAll "/t" "a/" okExceptBad ["a/bad"] []).2 := by
  have h := C8_object_store "/t" "a/" okExceptBad ["a/x.txt"] "a/bad" [] [] []
    (by decide) (by decide)
  refine ⟨by simpa using h.1, h.2.1.1, ?_⟩
  have h3 := h.2.1.2
  simpa using h3

/-! ## C9: credential cleanup -/

/-- C9: after any sync() call of the repository strategy (fresh clone or
in-place update) or of the remote-filesystem strategy, under every fault
combination — decoding, temp-file creation, write, chmod, connection test,
transfer, each succeeding or failing — no ephemeral private-key file created
during that call remains on disk. -/
theorem C9_credential_cleanup (gfClone gfExisting : GitKeyFaults)
    (sf : SshKeyFaults) :
    (gitCloneRepoKeyFile gfClone).2 = false ∧
    (gitSyncExistingKeyFile gfExisting).2 = false ∧
    (sshSyncKeyFile sf).2 = false := by
  refine ⟨?_, ?_, ?_⟩
  · obtain ⟨a, b, c, d, e, f⟩ := gfClone
    cases a <;> cases b <;> cases c <;> cases d <;> cases e <;> cases f <;> rfl
  · obtain ⟨a, b, c, d, e, f⟩ := gfExisting
    cases a <;> cases b <;> cases c <;> cases d <;> cases e <;> cases f <;> rfl
  · obtain ⟨m, a, b, c, d, e, f, g, i, j⟩ := sf
    cases m <;> cases a <;> cases b <;> cases c <;> cases d <;> cases e <;>
      cases f <;> cases g <;> cases i <;> cases j <;> rfl

/-! ## C10: unsanitized HTTP download filename -/

/-- Helper: the empty needle is a prefix of every haystack. -/
theorem listHasPfx_nil (l : List Char) : listHasPfx l [] = true := by
  cases l <;> rfl

/-- Helper: a list is a prefix of itself extended by anything. -/
theorem listHasPfx_append (xs ys : List Char) :
    listHasPfx (xs ++ ys) xs = true := by
  induction xs with
  | nil => exact listHasPfx_nil ys
  | cons c cs ih => simp [listHasPfx, ih]

/-- Helper: the needle is found at index 0 when the haystack starts with it. -/
theorem listIndexOf_append_self (xs ys : List Char) (h : xs ≠ []) :
    listIndexOf (xs ++ ys) xs = some 0 := by
  cases xs with
  | nil => exact absurd rfl h
  | cons c cs =>
    have hp : listHasPfx ((c :: cs) ++ ys) (c :: cs) = true :=
      listHasPfx_append _ _
    rw [List.cons_append] at hp ⊢
    simp [listIndexOf, hp]

/-- Helper: strings.Index finds a leading occurrence at position 0. -/
theorem goIndexOf_leading (pre fn : String) (h : pre.data ≠ []) :
    goIndexOf (pre ++ fn) pre = some 0 := by
  unfold goIndexOf
  rw [String.data_append]
  exact listIndexOf_append_self _ _ h

/-- Helper: dropping the header literal of a Content-Disposition value leaves
the raw filename. -/
theorem goStrDrop_filename (fn : String) :
    goStrDrop ("filename=" ++ fn) 9 = fn := by
  unfold goStrDrop
  rw [String.data_append,
    show (9 : Nat) = ("filename=" : String).data.length from by decide,
    List.drop_left]

/-- C10: the filename taken from the Content-Disposition header is used
verbatim — any quote-free non-empty filename value, including one with path
separators and dot-dot segments, becomes exactly the resolved filename, and
the output path is path.Join of the target and that name; concretely the
header value filename=../../etc/evil makes the file land at /etc/evil,
outside the target directory /data/out. -/
theorem C10_unsanitized_filename (fn target urlPath : String) (hfn : fn ≠ "")
    (htrim : goTrimCut fn cdQuoteChars = fn) :
    httpResolveFilename urlPath ("filename=" ++ fn) = fn ∧
    httpOutPath target urlPath ("filename=" ++ fn) = goPathJoin2 target fn ∧
    httpOutPath "/data/out" "/files/report.txt"
      "attachment; filename=../../etc/evil" = "/etc/evil" ∧
    goHasPfx "/etc/evil" "/data/out" = false := by
  have hcd : ("filename=" ++ fn) ≠ "" := by
    intro hc
    have hdat : ("filename=" ++ fn).data = ("" : String).data := by rw [hc]
    rw [String.data_append] at hdat
    have h9 : ("filename=" : String).data = [] :=
      (List.append_eq_nil.mp hdat).1
    exact absurd h9 (by decide)
  have hres : httpResolveFilename urlPath ("filename=" ++ fn) = fn := by
    unfold httpResolveFilename
    rw [if_neg hcd, goIndexOf_leading _ _ (by decide)]
    simp only [Nat.zero_add, goStrDrop_filename, htrim, ne_eq, hfn,
      not_false_eq_true, if_true]
  refine ⟨hres, ?_, by rfl, by rfl⟩
  unfold httpOutPath
  rw [hres]

end VolumeSyncer

namespace VolumeSyncer

/-- C10 witness: the header filename ../../etc/evil is resolved verbatim and
joined to the target, landing outside /data/out. -/
theorem C10_unsanitized_filename_witness :
    httpResolveFilename "/files/report.txt" ("filename=" ++ "../../etc/evil") =
      "../../etc/evil" ∧
    httpOutPath "/data/out" "/files/report.txt"
      ("filename=" ++ "../../etc/evil") =
      goPathJoin2 "/data/out" "../../etc/evil" ∧
    httpOutPath "/data/out" "/files/report.txt"
      "attachment; filename=../../etc/evil" = "/etc/evil" ∧
    goHasPfx "/etc/evil" "/data/out" = false :=
  C10_unsanitized_filename "../../etc/evil" "/data/out" "/files/report.txt"
    (by decide) (by decide)

/-- C3 amended witness: a concrete ssh construction performs no effect and a
concrete s3 construction performs no filesystem effect. -/
theorem C3_amended_witness :
    (createSyncer 5 envOk ⟨"ssh", sshDetailsVal⟩ "/vol").2 = [] ∧
    Effect.filesystem ∉ (createSyncer 300 envOk ⟨"s3", s3DetailsVal⟩ "/vol").2 :=
  ⟨(C3_amended 5 envOk sshDetailsVal "/vol").1,
   (C3_amended 300 envOk s3DetailsVal "/vol").2.2.2⟩

end VolumeSyncer
